import Mathlib

/-!
Verification of the NextTalk chat backend (routes/chats.js, the socket handler
in index.js, and the Chat/Message Mongoose models) against its natural-language
specification.

The durable store is modelled as explicit state: a list of `Chat` documents and
a list of `Message` documents, plus an id allocator and a logical clock (each
read of `Date.now()` / each timestamped save ticks the clock, so later reads
are never earlier).  Each HTTP route and socket handler from the source is one
pure function from a `Store` and its request parameters to a result carrying
the HTTP status (or socket success flag) and the next store.  User ids, chat
ids and message ids are `Nat` (Mongo ObjectIds; the `isValid` format checks of
the routes are subsumed by the type).  The `User` collection is out of the
modelled state: the only use the modelled routes make of it is to render
usernames into system-message text, which we abstract as a fixed string.
-/

namespace NextTalk

/-- Chat `type` field: 'private' or 'group' in the source ('private' is a Lean
keyword, hence `priv`). -/
inductive ChatType where
  | priv : ChatType
  | group : ChatType
deriving DecidableEq, Inhabited

/-- A document of the `Message` collection (models/Message.js, media
iteration): `content` is optional, `mediaUrl`/`mediaType` optional, `readBy`
defaults to the empty array, `isSystemMessage` defaults to false, and
timestamps give `createdAt`. -/
structure Message where
  id : Nat
  chat : Nat
  sender : Nat
  content : Option String
  mediaUrl : Option String
  mediaType : Option String
  readBy : List Nat
  isSystemMessage : Bool
  createdAt : Nat
deriving DecidableEq

/-- A document of the `Chat` collection (models/Chat.js): participants, type,
optional name, nullable `lastMessage` reference, admins, `hiddenBy`, and
timestamps. -/
structure Chat where
  id : Nat
  ctype : ChatType
  name : Option String
  participants : List Nat
  admins : List Nat
  lastMessage : Option Nat
  hiddenBy : List Nat
  createdAt : Nat
  updatedAt : Nat
deriving DecidableEq, Inhabited

/-- The durable document store plus an id allocator and the logical clock. -/
structure Store where
  chats : List Chat
  messages : List Message
  nextId : Nat
  now : Nat
deriving DecidableEq

/-- `Chat.findById`: the first chat document with the given id. -/
def findChat (st : Store) (chatId : Nat) : Option Chat :=
  st.chats.find? (fun c => c.id == chatId)

/-- `chat.save()`: overwrite the stored document having this document's id. -/
def saveChat (st : Store) (c : Chat) : Store :=
  { st with chats := st.chats.map (fun d => if d.id == c.id then c else d) }

/-- The `isAdmin` helper of routes/chats.js: membership in `chat.admins`. -/
def isAdmin (chat : Chat) (userId : Nat) : Bool :=
  chat.admins.contains userId

/-- JavaScript falsiness of an optional request string (`!content` is true for
a missing field and for the empty string). -/
def jsFalsy : Option String → Bool
  | none => true
  | some s => s == ""

/-- An uploaded file as multer presents it to the route. -/
structure MediaFile where
  filename : String
  mimetype : String
deriving DecidableEq

/-- The route's media-type classification of an uploaded file's mimetype. -/
def mediaTypeOf (mime : String) : Option String :=
  if mime.startsWith "image/" then
    if (mime.splitOn "gif").length > 1 then some "gif" else some "image"
  else if mime.startsWith "video/" then some "video"
  else none

/-- Result of the message-send route: HTTP status, the persisted message on
success, and the next store. -/
structure SendRes where
  status : Nat
  newMsg : Option Message
  store : Store
deriving DecidableEq

/-- POST /api/chats/:chatId/messages (media iteration of routes/chats.js):
reject a payload with neither content nor file (400), look up the chat (404),
authorize the sender as a participant (403), then persist the message (readBy
is not set, so the schema default `[]` applies), set the chat's `lastMessage`
to the new message's id, bump `updatedAt`, and save the chat. -/
def sendMessage (st : Store) (chatId senderId : Nat) (content : Option String)
    (file : Option MediaFile) : SendRes :=
  let mediaUrl := file.map (fun f => "/uploads/" ++ f.filename)
  let mediaType := file.bind (fun f => mediaTypeOf f.mimetype)
  if jsFalsy content && file.isNone then ⟨400, none, st⟩
  else
    match findChat st chatId with
    | none => ⟨404, none, st⟩
    | some chat =>
      if !(chat.participants.contains senderId) then ⟨403, none, st⟩
      else
        let m : Message :=
          ⟨st.nextId, chatId, senderId, content, mediaUrl, mediaType, [], false, st.now⟩
        let st1 : Store :=
          { st with messages := st.messages ++ [m], nextId := st.nextId + 1 }
        let st2 := saveChat st1 { chat with lastMessage := some m.id, updatedAt := st.now + 1 }
        ⟨201, some m, { st2 with now := st.now + 2 }⟩

/-- Result of the socket `sendMessage` handler. -/
structure SocketSendRes where
  success : Bool
  newMsg : Option Message
  store : Store
deriving DecidableEq

/-- The socket.on('sendMessage') handler of index.js: requires a non-falsy
content and an existing chat with the sender as participant; persists the
message with `readBy: [sender]`, then sets the chat's `lastMessage` to the new
id and `updatedAt` to the message's `createdAt`. -/
def socketSendMessage (st : Store) (userId chatId : Nat) (content : String) :
    SocketSendRes :=
  if content == "" then ⟨false, none, st⟩
  else
    match findChat st chatId with
    | none => ⟨false, none, st⟩
    | some chat =>
      if !(chat.participants.contains userId) then ⟨false, none, st⟩
      else
        let m : Message :=
          ⟨st.nextId, chatId, userId, some content, none, none, [userId], false, st.now⟩
        let st1 : Store :=
          { st with messages := st.messages ++ [m], nextId := st.nextId + 1 }
        let st2 := saveChat st1 { chat with lastMessage := some m.id, updatedAt := m.createdAt }
        ⟨true, some m, { st2 with now := st.now + 1 }⟩

/-- Result of the markAsRead route: HTTP status, the `modifiedCount` reported
by `updateMany`, and the next store. -/
structure MarkRes where
  status : Nat
  updatedCount : Nat
  store : Store
deriving DecidableEq

/-- The `updateMany` filter of the markAsRead route: messages of this chat not
sent by this user and not already read by them. -/
def markReadPred (chatId userId : Nat) (m : Message) : Bool :=
  m.chat == chatId && m.sender != userId && !(m.readBy.contains userId)

/-- The `$addToSet` update applied by markAsRead to one message document. -/
def markReadUpd (chatId userId : Nat) (m : Message) : Message :=
  if markReadPred chatId userId m then { m with readBy := m.readBy ++ [userId] } else m

/-- POST /api/chats/:chatId/markAsRead: look up the chat (404), authorize the
caller as a participant (403), then `updateMany` adds the caller to `readBy`
of every message of the chat not sent by them and not already read by them,
reporting the number of modified documents. -/
def markAsRead (st : Store) (chatId userId : Nat) : MarkRes :=
  match findChat st chatId with
  | none => ⟨404, 0, st⟩
  | some chat =>
    if !(chat.participants.contains userId) then ⟨403, 0, st⟩
    else
      let cnt := (st.messages.filter (markReadPred chatId userId)).length
      ⟨200, cnt, { st with messages := st.messages.map (markReadUpd chatId userId) }⟩

/-- Result of the chat-creation route: HTTP status, the returned chat document
(existing or newly created) and the next store. -/
structure CreateRes where
  status : Nat
  chat : Option Chat
  store : Store
deriving DecidableEq

/-- The `findOne` query used for private-chat dedup: type 'private',
participants of size exactly 2 containing every requested participant. -/
def directMatch (ps : List Nat) (c : Chat) : Bool :=
  c.ctype == ChatType.priv && c.participants.length == 2 &&
    ps.all (fun p => c.participants.contains p)

/-- POST /api/chats: validate the participants array and (for groups) the
name, force the requester into the participants, and then either return the
existing private chat for the same two participants (200) or insert a new chat
(201) — group chats start with the requester as sole admin, private chats with
no admins. -/
def createChat (st : Store) (requester : Nat) (participantsReq : List Nat)
    (ctype : ChatType) (name : Option String) : CreateRes :=
  if participantsReq.length < 1 then ⟨400, none, st⟩
  else if ctype == ChatType.group && (name.getD "").trim == "" then ⟨400, none, st⟩
  else
    let ps := if participantsReq.contains requester then participantsReq
              else participantsReq ++ [requester]
    match ctype with
    | ChatType.priv =>
      if ps.length != 2 then ⟨400, none, st⟩
      else
        match st.chats.find? (directMatch ps) with
        | some c => ⟨200, some c, st⟩
        | none =>
          let c : Chat := ⟨st.nextId, ChatType.priv, none, ps, [], none, [], st.now, st.now⟩
          ⟨201, some c,
            { st with chats := st.chats ++ [c], nextId := st.nextId + 1, now := st.now + 1 }⟩
    | ChatType.group =>
      let c : Chat := ⟨st.nextId, ChatType.group, name, ps, [requester], none, [], st.now, st.now⟩
      ⟨201, some c,
        { st with chats := st.chats ++ [c], nextId := st.nextId + 1, now := st.now + 1 }⟩

/-- Result of a membership route: HTTP status, response message, next store. -/
structure MemberRes where
  status : Nat
  msg : String
  store : Store
deriving DecidableEq

/-- Appends the synthetic system message the membership routes persist before
broadcasting (usernames in its text come from the User collection, which is
outside the modelled state). -/
def addSystemMessage (st : Store) (chatId senderId : Nat) (t : Nat) : Store :=
  { st with
    messages := st.messages ++
      [⟨st.nextId, chatId, senderId, some "membership update", none, none, [], true, t⟩],
    nextId := st.nextId + 1 }

/-- POST /api/chats/:chatId/members: reject an empty id array (400), look up
the chat (404), require a group (400) and an admin actor (403), drop ids that
are already participants (200 no-op if none remain), append the rest, bump
`updatedAt`, save, and persist a system message. -/
def addMembers (st : Store) (actorId chatId : Nat) (newIds : List Nat) : MemberRes :=
  if newIds.isEmpty then ⟨400, "new member ids array is required.", st⟩
  else
    match findChat st chatId with
    | none => ⟨404, "chat not found.", st⟩
    | some chat =>
      if chat.ctype != ChatType.group then
        ⟨400, "members can only be added to group chats.", st⟩
      else if !(isAdmin chat actorId) then ⟨403, "only chat admins can add members.", st⟩
      else
        let uniq := newIds.filter (fun i => !(chat.participants.contains i))
        if uniq.isEmpty then ⟨200, "all provided users are already members.", st⟩
        else
          let st1 := saveChat st
            { chat with participants := chat.participants ++ uniq, updatedAt := st.now }
          ⟨200, "members added successfully.",
            { addSystemMessage st1 chatId actorId (st.now + 1) with now := st.now + 2 }⟩

/-- DELETE /api/chats/:chatId/members/:memberIdToRemove: look up the chat
(404), require a group (400) and an admin actor (403), refuse to remove the
sole remaining admin (403 with guidance), then filter the target out of
participants and admins; if nothing was removed report 404 without saving
(the in-memory removal is discarded), otherwise bump `updatedAt`, save, and
persist a system message. -/
def removeMember (st : Store) (actorId chatId targetId : Nat) : MemberRes :=
  match findChat st chatId with
  | none => ⟨404, "chat not found.", st⟩
  | some chat =>
    if chat.ctype != ChatType.group then
      ⟨400, "members can only be removed from group chats.", st⟩
    else if !(isAdmin chat actorId) then ⟨403, "only chat admins can remove members.", st⟩
    else if isAdmin chat targetId && chat.admins.length == 1 &&
        chat.admins.head? == some targetId then
      ⟨403,
        "cannot remove the last admin from the group. transfer admin rights first or delete the chat.",
        st⟩
    else
      let parts := chat.participants.filter (fun i => i != targetId)
      let adms := chat.admins.filter (fun i => i != targetId)
      if parts.length == chat.participants.length then
        ⟨404, "member not found in this chat.", st⟩
      else
        let st1 := saveChat st { chat with participants := parts, admins := adms, updatedAt := st.now }
        ⟨200, "member removed successfully.",
          { addSystemMessage st1 chatId actorId (st.now + 1) with now := st.now + 2 }⟩

/-- PUT /api/chats/leave/:chatId (first iteration): look up the chat (404),
require a group (400), filter the caller out of participants and admins
(200 no-op if they were not a participant); if the caller was the last admin
the earliest-joined remaining participant is promoted; if the chat became
empty it is deleted (its messages are left in place), otherwise the chat is
saved and a system message persisted. -/
def leaveV1 (st : Store) (userId chatId : Nat) : MemberRes :=
  match findChat st chatId with
  | none => ⟨404, "chat not found.", st⟩
  | some chat =>
    if chat.ctype != ChatType.group then ⟨400, "only group chats can be left.", st⟩
    else
      let parts := chat.participants.filter (fun i => i != userId)
      let adms := chat.admins.filter (fun i => i != userId)
      if parts.length == chat.participants.length then
        ⟨200, "you are not a participant of this chat.", st⟩
      else
        match parts with
        | [] =>
          ⟨200, "successfully left chat, and chat was deleted as it became empty.",
            { st with chats := st.chats.filter (fun c => c.id != chatId) }⟩
        | p :: rest =>
          let adms2 := if adms.isEmpty then adms ++ [p] else adms
          let st1 := saveChat st
            { chat with participants := p :: rest, admins := adms2, updatedAt := st.now }
          ⟨200, "successfully left chat.",
            { addSystemMessage st1 chatId userId (st.now + 1) with now := st.now + 2 }⟩

/-- POST /api/chats/:chatId/leave (second iteration): look up the chat (404),
reject private chats (400) and non-participants (400), refuse when the caller
is the sole remaining admin (403), then filter the caller out of participants
and admins, bump `updatedAt`, save, and persist a system message. -/
def leaveV2 (st : Store) (userId chatId : Nat) : MemberRes :=
  match findChat st chatId with
  | none => ⟨404, "chat not found.", st⟩
  | some chat =>
    if chat.ctype == ChatType.priv then
      ⟨400, "use the delete chat endpoint for private chats.", st⟩
    else if !(chat.participants.contains userId) then
      ⟨400, "you are not a participant of this chat.", st⟩
    else if isAdmin chat userId && chat.admins.length == 1 &&
        chat.admins.head? == some userId then
      ⟨403, "cannot leave: you are the last admin. transfer admin rights or delete the group.", st⟩
    else
      let parts := chat.participants.filter (fun p => p != userId)
      let adms := chat.admins.filter (fun a => a != userId)
      if parts.length == chat.participants.length then
        ⟨404, "user not found in this chat.", st⟩
      else
        let st1 := saveChat st
          { chat with participants := parts, admins := adms, updatedAt := st.now }
        ⟨200, "successfully left chat.",
          { addSystemMessage st1 chatId userId (st.now + 1) with now := st.now + 2 }⟩

/-- DELETE /api/chats/:chatId: look up the chat (404); for a group, require an
admin (403) and then delete the chat together with all of its messages; for a
private chat, require a participant (403), remove the caller, and delete chat
plus messages only once no participant remains, otherwise save the shrunken
chat. -/
def deleteChatRoute (st : Store) (userId chatId : Nat) : MemberRes :=
  match findChat st chatId with
  | none => ⟨404, "chat not found.", st⟩
  | some chat =>
    if chat.ctype == ChatType.group then
      if !(isAdmin chat userId) then ⟨403, "only chat admins can delete group chats.", st⟩
      else
        ⟨200, "chat and its messages deleted successfully.",
          { st with chats := st.chats.filter (fun c => c.id != chatId),
                    messages := st.messages.filter (fun m => m.chat != chatId) }⟩
    else
      if !(chat.participants.contains userId) then
        ⟨403, "not authorized to delete this chat.", st⟩
      else
        let parts := chat.participants.filter (fun p => p != userId)
        match parts with
        | [] =>
          ⟨200, "chat and its messages deleted successfully.",
            { st with chats := st.chats.filter (fun c => c.id != chatId),
                      messages := st.messages.filter (fun m => m.chat != chatId) }⟩
        | p :: rest =>
          ⟨200, "successfully left chat.",
            saveChat st { chat with participants := p :: rest, updatedAt := st.now }⟩

/-- One request against the store: every mutating operation of the modelled
surface. -/
inductive Op where
  | create (requester : Nat) (ps : List Nat) (ctype : ChatType) (name : Option String) : Op
  | add (actor chatId : Nat) (newIds : List Nat) : Op
  | remove (actor chatId target : Nat) : Op
  | leaveA (user chatId : Nat) : Op
  | leaveB (user chatId : Nat) : Op
  | send (sender chatId : Nat) (content : Option String) (file : Option MediaFile) : Op
  | sockSend (sender chatId : Nat) (content : String) : Op
  | markRead (user chatId : Nat) : Op
  | delChat (user chatId : Nat) : Op

/-- The store after executing one operation. -/
def applyOp (st : Store) : Op → Store
  | Op.create r ps t n => (createChat st r ps t n).store
  | Op.add a cid ids => (addMembers st a cid ids).store
  | Op.remove a cid t => (removeMember st a cid t).store
  | Op.leaveA u cid => (leaveV1 st u cid).store
  | Op.leaveB u cid => (leaveV2 st u cid).store
  | Op.send s cid c f => (sendMessage st cid s c f).store
  | Op.sockSend s cid c => (socketSendMessage st s cid c).store
  | Op.markRead u cid => (markAsRead st cid u).store
  | Op.delChat u cid => (deleteChatRoute st u cid).store

/-! ### Basic lemmas about the store primitives -/

theorem findChat_mem {st : Store} {cid : Nat} {c : Chat} (h : findChat st cid = some c) :
    c ∈ st.chats ∧ c.id = cid := by
  unfold findChat at h
  refine ⟨List.mem_of_find?_eq_some h, ?_⟩
  simpa using List.find?_some h

theorem mem_saveChat {st : Store} {nd c : Chat} (h : c ∈ (saveChat st nd).chats) :
    c = nd ∨ (c ∈ st.chats ∧ c.id ≠ nd.id) := by
  unfold saveChat at h
  simp only [List.mem_map] at h
  obtain ⟨d, hd, hdc⟩ := h
  by_cases hdd : (d.id == nd.id) = true
  · left
    rw [if_pos hdd] at hdc
    exact hdc.symm
  · right
    rw [if_neg hdd] at hdc
    subst hdc
    exact ⟨hd, by simpa using hdd⟩

theorem saveChat_self_mem {st : Store} {c0 : Chat} (h : c0 ∈ st.chats) (nd : Chat)
    (hid : nd.id = c0.id) : nd ∈ (saveChat st nd).chats := by
  unfold saveChat
  simp only [List.mem_map]
  exact ⟨c0, h, by rw [hid]; simp⟩

theorem contains_eq_true_of_mem {l : List Nat} {a : Nat} (h : a ∈ l) :
    l.contains a = true := by
  simpa [List.elem_eq_mem, decide_eq_true_eq] using h

theorem contains_eq_false_of_not_mem {l : List Nat} {a : Nat} (h : a ∉ l) :
    l.contains a = false := by
  simpa [List.elem_eq_mem] using h

/-! ### Claim C1 -/

/-- Claim C1: every successful send through POST /api/chats/:chatId/messages
persists the new message, and in the resulting store the conversation's
`lastMessage` equals the new message's id while its `updatedAt` is at least
the message's creation time — both fields written by the same save. -/
theorem sendMessage_updates_summary (st : Store) (chatId senderId : Nat)
    (content : Option String) (file : Option MediaFile) (c0 : Chat)
    (hfind : findChat st chatId = some c0)
    (hpart : senderId ∈ c0.participants)
    (hpayload : (jsFalsy content && file.isNone) = false) :
    (sendMessage st chatId senderId content file).status = 201 ∧
    ∃ m : Message, (sendMessage st chatId senderId content file).newMsg = some m ∧
      m ∈ (sendMessage st chatId senderId content file).store.messages ∧
      (∃ c ∈ (sendMessage st chatId senderId content file).store.chats, c.id = chatId) ∧
      ∀ c ∈ (sendMessage st chatId senderId content file).store.chats,
        c.id = chatId → c.lastMessage = some m.id ∧ m.createdAt ≤ c.updatedAt := by
  obtain ⟨hmem, hid⟩ := findChat_mem hfind
  have hcont : c0.participants.contains senderId = true := contains_eq_true_of_mem hpart
  unfold sendMessage
  rw [hfind]
  simp only [hpayload, hcont, Bool.not_true, Bool.false_eq_true, if_false]
  refine ⟨trivial, _, rfl, ?_, ?_, ?_⟩
  · simp [saveChat]
  · exact ⟨_, saveChat_self_mem hmem _ rfl, hid⟩
  · intro c hc hcid
    rcases mem_saveChat hc with rfl | ⟨_, hne⟩
    · exact ⟨rfl, Nat.le_succ _⟩
    · exact absurd (hcid.trans hid.symm) hne

/-- Witness for C1 at a concrete store. -/
theorem sendMessage_updates_summary_witness :
    (sendMessage ⟨[⟨1, ChatType.group, some "g", [3, 4], [3], none, [], 0, 0⟩], [], 10, 100⟩
      1 3 (some "hi") none).status = 201 := by
  exact (sendMessage_updates_summary _ 1 3 (some "hi") none
    ⟨1, ChatType.group, some "g", [3, 4], [3], none, [], 0, 0⟩
    (by decide) (by decide) (by decide)).1

/-! ### Claim C2 -/

/-- Claim C2: the send route fails with 404 (NotFound) when the conversation
is absent, 403 (Forbidden) when the sender is not a participant, and 400
(InvalidPayload) when both content and media are absent — and in the
InvalidPayload case the store is completely unchanged. -/
theorem sendMessage_errors (st : Store) (chatId senderId : Nat)
    (content : Option String) (file : Option MediaFile) :
    (content = none → file = none →
      (sendMessage st chatId senderId content file).status = 400 ∧
      (sendMessage st chatId senderId content file).store = st) ∧
    ((jsFalsy content && file.isNone) = false → findChat st chatId = none →
      (sendMessage st chatId senderId content file).status = 404) ∧
    ((jsFalsy content && file.isNone) = false → ∀ c0, findChat st chatId = some c0 →
      senderId ∉ c0.participants →
      (sendMessage st chatId senderId content file).status = 403) := by
  refine ⟨?_, ?_, ?_⟩
  · rintro rfl rfl
    exact ⟨rfl, rfl⟩
  · intro hok hnone
    unfold sendMessage
    rw [hnone]
    simp [hok]
  · intro hok c0 hfind hnp
    unfold sendMessage
    rw [hfind]
    simp [hok, hnp]

/-- Witness for C2: all three error cases at concrete stores. -/
theorem sendMessage_errors_witness :
    (sendMessage ⟨[], [], 0, 0⟩ 1 3 none none).status = 400 ∧
    (sendMessage ⟨[], [], 0, 0⟩ 1 3 (some "hi") none).status = 404 ∧
    (sendMessage ⟨[⟨1, ChatType.group, some "g", [4], [4], none, [], 0, 0⟩], [], 10, 0⟩
      1 3 (some "hi") none).status = 403 := by
  refine ⟨((sendMessage_errors ⟨[], [], 0, 0⟩ 1 3 none none).1 rfl rfl).1, ?_, ?_⟩
  · exact (sendMessage_errors ⟨[], [], 0, 0⟩ 1 3 (some "hi") none).2.1 (by decide) (by decide)
  · exact (sendMessage_errors _ 1 3 (some "hi") none).2.2 (by decide)
      ⟨1, ChatType.group, some "g", [4], [4], none, [], 0, 0⟩ (by decide) (by decide)

/-! ### Claim C4 -/

/-- Counterexample to claim C4 as stated: a successful send through the HTTP
route returns a message whose `readBy` does not contain the sender (the route
never sets `readBy`, so the schema default `[]` applies). -/
theorem sendMessage_readBy_counterexample :
    (sendMessage ⟨[⟨1, ChatType.group, some "g", [3, 4], [3], none, [], 0, 0⟩], [], 10, 100⟩
        1 3 (some "hi") none).status = 201 ∧
    ((sendMessage ⟨[⟨1, ChatType.group, some "g", [3, 4], [3], none, [], 0, 0⟩], [], 10, 100⟩
        1 3 (some "hi") none).newMsg.map
      (fun m => m.readBy.contains m.sender)) = some false :=
  ⟨rfl, rfl⟩

/-- Claim C4 (amended): only the socket `sendMessage` handler creates messages
with the sender in `readBy` (`readBy: [sender]`); the HTTP send route creates
messages with empty `readBy`, so there the sender is not a member of `readBy`
at creation. -/
theorem message_readBy_at_creation (st : Store) (chatId userId : Nat)
    (content : String) (c0 : Chat)
    (hfind : findChat st chatId = some c0) (hpart : userId ∈ c0.participants)
    (hcontent : content ≠ "") :
    (∃ m, (socketSendMessage st userId chatId content).newMsg = some m ∧
      m.readBy = [userId]) ∧
    (∀ (content2 : Option String) (file : Option MediaFile),
      (jsFalsy content2 && file.isNone) = false →
      ∃ m, (sendMessage st chatId userId content2 file).newMsg = some m ∧
        m.readBy = []) := by
  have hcont : c0.participants.contains userId = true := contains_eq_true_of_mem hpart
  constructor
  · unfold socketSendMessage
    rw [hfind]
    simp [hcontent, hcont, hpart]
  · intro content2 file hok
    unfold sendMessage
    rw [hfind]
    simp [hok, hcont, hpart]

/-- Witness for the amended C4 at a concrete store. -/
theorem message_readBy_at_creation_witness :
    (∃ m, (socketSendMessage
        ⟨[⟨1, ChatType.group, some "g", [3, 4], [3], none, [], 0, 0⟩], [], 10, 100⟩
        3 1 "hi").newMsg = some m ∧ m.readBy = [3]) ∧
    (∃ m, (sendMessage
        ⟨[⟨1, ChatType.group, some "g", [3, 4], [3], none, [], 0, 0⟩], [], 10, 100⟩
        1 3 (some "hi") none).newMsg = some m ∧ m.readBy = []) := by
  have h := message_readBy_at_creation
    ⟨[⟨1, ChatType.group, some "g", [3, 4], [3], none, [], 0, 0⟩], [], 10, 100⟩
    1 3 "hi" ⟨1, ChatType.group, some "g", [3, 4], [3], none, [], 0, 0⟩
    (by decide) (by decide) (by decide)
  exact ⟨h.1, h.2 (some "hi") none (by decide)⟩

/-! ### Claim C9 -/

/-- Counterexample to claim C9 as stated: removing the sole admin of a group
is refused with HTTP 403 (Forbidden), not 409 (Conflict). -/
theorem removeMember_last_admin_counterexample :
    (removeMember ⟨[⟨1, ChatType.group, some "g", [1, 2], [1], none, [], 0, 0⟩], [], 10, 0⟩
        1 1 1).status = 403 ∧
    (removeMember ⟨[⟨1, ChatType.group, some "g", [1, 2], [1], none, [], 0, 0⟩], [], 10, 0⟩
        1 1 1).status ≠ 409 :=
  ⟨rfl, by decide⟩

/-- Claim C9 (amended): removeMember refuses to remove a target who is the
sole remaining admin of a group with HTTP 403 (Forbidden), reporting guidance
to transfer admin rights first, and the stored conversation is unchanged. -/
theorem removeMember_last_admin_refused (st : Store) (actorId chatId targetId : Nat)
    (c0 : Chat) (hfind : findChat st chatId = some c0)
    (hgroup : c0.ctype = ChatType.group)
    (hactor : isAdmin c0 actorId = true)
    (htarget : isAdmin c0 targetId = true) (hlen : c0.admins.length = 1)
    (hhead : c0.admins.head? = some targetId) :
    (removeMember st actorId chatId targetId).status = 403 ∧
    (removeMember st actorId chatId targetId).msg =
      "cannot remove the last admin from the group. transfer admin rights first or delete the chat." ∧
    (removeMember st actorId chatId targetId).store = st := by
  unfold removeMember
  rw [hfind]
  simp [hgroup, hactor, htarget, hlen, hhead]

/-- Witness for the amended C9 at a concrete store. -/
theorem removeMember_last_admin_refused_witness :
    (removeMember ⟨[⟨1, ChatType.group, some "g", [1, 2], [1], none, [], 0, 0⟩], [], 10, 0⟩
        1 1 1).status = 403 ∧
    (removeMember ⟨[⟨1, ChatType.group, some "g", [1, 2], [1], none, [], 0, 0⟩], [], 10, 0⟩
        1 1 1).store =
      ⟨[⟨1, ChatType.group, some "g", [1, 2], [1], none, [], 0, 0⟩], [], 10, 0⟩ := by
  have h := removeMember_last_admin_refused
    ⟨[⟨1, ChatType.group, some "g", [1, 2], [1], none, [], 0, 0⟩], [], 10, 0⟩ 1 1 1
    ⟨1, ChatType.group, some "g", [1, 2], [1], none, [], 0, 0⟩
    (by decide) (by decide) (by decide) (by decide) (by decide) (by decide)
  exact ⟨h.1, h.2.2⟩

/-! ### Claim C10 -/

/-- Claim C10: removeMember called by a group admin with a target who is not a
participant returns 404 (NotFound) and leaves the durable store identical to
what it was before the call (the in-memory filtering is never saved). -/
theorem removeMember_nonmember_notfound (st : Store) (actorId chatId targetId : Nat)
    (c0 : Chat) (hfind : findChat st chatId = some c0)
    (hgroup : c0.ctype = ChatType.group)
    (hactor : isAdmin c0 actorId = true)
    (htarget : targetId ∉ c0.participants)
    (hsub : ∀ a ∈ c0.admins, a ∈ c0.participants) :
    (removeMember st actorId chatId targetId).status = 404 ∧
    (removeMember st actorId chatId targetId).store = st := by
  have hta : isAdmin c0 targetId = false := by
    unfold isAdmin
    exact contains_eq_false_of_not_mem (fun h => htarget (hsub _ h))
  have hfilter : c0.participants.filter (fun i => i != targetId) = c0.participants := by
    apply List.filter_eq_self.mpr
    intro a ha
    simp only [bne_iff_ne, ne_eq, decide_eq_true_eq]
    rintro rfl
    exact htarget ha
  unfold removeMember
  rw [hfind]
  simp [hgroup, hactor, hta, hfilter]

/-- Witness for C10 at a concrete store. -/
theorem removeMember_nonmember_notfound_witness :
    (removeMember ⟨[⟨1, ChatType.group, some "g", [3, 4], [3], none, [], 0, 0⟩], [], 10, 0⟩
        3 1 9).status = 404 ∧
    (removeMember ⟨[⟨1, ChatType.group, some "g", [3, 4], [3], none, [], 0, 0⟩], [], 10, 0⟩
        3 1 9).store =
      ⟨[⟨1, ChatType.group, some "g", [3, 4], [3], none, [], 0, 0⟩], [], 10, 0⟩ :=
  removeMember_nonmember_notfound
    ⟨[⟨1, ChatType.group, some "g", [3, 4], [3], none, [], 0, 0⟩], [], 10, 0⟩ 3 1 9
    ⟨1, ChatType.group, some "g", [3, 4], [3], none, [], 0, 0⟩
    (by decide) (by decide) (by decide) (by decide) (by decide)

/-! ### Claim C5 -/

theorem filterNe_length_lt {l : List Nat} {t : Nat} (h : t ∈ l) :
    (l.filter (fun i => i != t)).length < l.length := by
  rw [List.length_filter_lt_length_iff_exists]
  exact ⟨t, h, by simp⟩

theorem not_mem_filterNe (l : List Nat) (t : Nat) :
    t ∉ l.filter (fun i => i != t) := by
  simp [List.mem_filter]

/-- A group whose sole admin (user 3) is a participant together with user 4. -/
def chatC5 : Chat := ⟨1, ChatType.group, some "g", [3, 4], [3], none, [], 0, 0⟩

def storeC5 : Store := ⟨[chatC5], [], 10, 100⟩

/-- Counterexample to claim C5 as stated: through POST /api/chats/:chatId/leave
a sole admin who is not the last participant is refused (403) instead of
leaving with an admin auto-transfer. -/
theorem leave_sole_admin_counterexample :
    (leaveV2 storeC5 3 1).status = 403 ∧ (leaveV2 storeC5 3 1).store = storeC5 ∧
    (findChat storeC5 1).map Chat.participants = some [3, 4] ∧
    (findChat storeC5 1).map Chat.admins = some [3] := by
  refine ⟨rfl, rfl, rfl, rfl⟩

/-- Claim C5 (amended): the two leave endpoints diverge for a sole admin with
other participants remaining — PUT /api/chats/leave/:chatId succeeds, removes
the actor from participants and admins, and auto-promotes the earliest-joined
remaining participant, while POST /api/chats/:chatId/leave refuses with 403
and leaves the store unchanged. -/
theorem leave_sole_admin_behavior (st : Store) (userId chatId : Nat) (c0 : Chat)
    (hfind : findChat st chatId = some c0) (hgroup : c0.ctype = ChatType.group)
    (hpart : userId ∈ c0.participants)
    (hsole : c0.admins = [userId])
    (hrem : c0.participants.filter (fun i => i != userId) ≠ []) :
    ((leaveV1 st userId chatId).status = 200 ∧
      ∀ c ∈ (leaveV1 st userId chatId).store.chats, c.id = chatId →
        userId ∉ c.participants ∧ userId ∉ c.admins ∧
        c.admins = [(c0.participants.filter (fun i => i != userId)).headI]) ∧
    (leaveV2 st userId chatId).status = 403 ∧
    (leaveV2 st userId chatId).store = st := by
  obtain ⟨hmem, hid⟩ := findChat_mem hfind
  have hlen : ((c0.participants.filter (fun i => i != userId)).length ==
      c0.participants.length) = false := by
    simpa using Nat.ne_of_lt (filterNe_length_lt hpart)
  obtain ⟨p, rest, hp⟩ := List.exists_cons_of_ne_nil hrem
  have hadms : c0.admins.filter (fun i => i != userId) = [] := by
    simp [hsole]
  refine ⟨?_, ?_, ?_⟩
  · have hlen2 : (((p : Nat) :: rest).length == c0.participants.length) = false := by
      rw [← hp]
      exact hlen
    unfold leaveV1
    rw [hfind]
    simp only [hgroup, bne_self_eq_false, Bool.false_eq_true, if_false, hp, hlen2, hadms,
      List.isEmpty_nil, List.nil_append, if_true]
    refine ⟨trivial, ?_⟩
    intro c hc hcid
    have hchats : c ∈ (saveChat st
        { c0 with
            ctype := ChatType.group
            participants := p :: rest
            admins := [p]
            updatedAt := st.now }).chats := by
      simpa [addSystemMessage] using hc
    rcases mem_saveChat hchats with rfl | ⟨_, hne⟩
    · have hnp : userId ∉ p :: rest := by
        rw [← hp]
        exact not_mem_filterNe _ _
      refine ⟨hnp, ?_, rfl⟩
      intro hu
      apply hnp
      have : userId = p := by simpa using hu
      rw [this]
      exact List.mem_cons_self _ _
    · exact absurd (hcid.trans hid.symm) hne
  · unfold leaveV2
    rw [hfind]
    simp [hgroup, hpart, isAdmin, hsole]
  · unfold leaveV2
    rw [hfind]
    simp [hgroup, hpart, isAdmin, hsole]

/-- Witness for the amended C5 at a concrete store. -/
theorem leave_sole_admin_behavior_witness :
    (leaveV1 storeC5 3 1).status = 200 ∧ (leaveV2 storeC5 3 1).status = 403 := by
  have h := leave_sole_admin_behavior storeC5 3 1 chatC5
    (by decide) (by decide) (by decide) (by decide) (by decide)
  exact ⟨h.1.1, h.2.1⟩

/-! ### Claim C8 -/

def chatC8 : Chat := ⟨1, ChatType.group, some "g", [7], [7], none, [], 0, 0⟩

def msgC8 : Message := ⟨5, 1, 7, some "hi", none, none, [7], false, 0⟩

def storeC8 : Store := ⟨[chatC8], [msgC8], 10, 100⟩

/-- Counterexample to claim C8 as stated: when the group self-leave route
empties a conversation, the conversation is deleted but its message with
`chat = 1` remains in the store — the deletion does not cascade. -/
theorem leave_empty_no_cascade_counterexample :
    (leaveV1 storeC8 7 1).status = 200 ∧
    (leaveV1 storeC8 7 1).store.chats = [] ∧
    msgC8 ∈ (leaveV1 storeC8 7 1).store.messages ∧ msgC8.chat = 1 := by
  refine ⟨rfl, rfl, ?_, rfl⟩
  simp [leaveV1, storeC8, findChat, chatC8, msgC8]

/-- Claim C8 (amended): a membership removal that empties a group (the
self-leave route) deletes only the conversation record and leaves its
messages in the store; the cascade to messages happens only on the explicit
chat-deletion route, which removes the chat and every message referencing
it. -/
theorem empty_conversation_deletion (st : Store) (userId chatId : Nat) (c0 : Chat)
    (hfind : findChat st chatId = some c0)
    (hgroup : c0.ctype = ChatType.group)
    (hpart : userId ∈ c0.participants) :
    (c0.participants.filter (fun i => i != userId) = [] →
      (leaveV1 st userId chatId).status = 200 ∧
      (∀ c ∈ (leaveV1 st userId chatId).store.chats, c.id ≠ chatId) ∧
      (leaveV1 st userId chatId).store.messages = st.messages) ∧
    (isAdmin c0 userId = true →
      (deleteChatRoute st userId chatId).status = 200 ∧
      (∀ c ∈ (deleteChatRoute st userId chatId).store.chats, c.id ≠ chatId) ∧
      ∀ m ∈ (deleteChatRoute st userId chatId).store.messages, m.chat ≠ chatId) := by
  constructor
  · intro hempty
    have hlen : ((c0.participants.filter (fun i => i != userId)).length ==
        c0.participants.length) = false := by
      simpa using Nat.ne_of_lt (filterNe_length_lt hpart)
    have hlen0 : (([] : List Nat).length == c0.participants.length) = false := by
      rw [← hempty]
      exact hlen
    unfold leaveV1
    rw [hfind]
    simp only [hgroup, bne_self_eq_false, Bool.false_eq_true, if_false, hempty, hlen0]
    refine ⟨trivial, ?_, trivial⟩
    intro c hc
    have := List.of_mem_filter hc
    simpa using this
  · intro hadm
    unfold deleteChatRoute
    rw [hfind]
    simp only [hgroup, if_true, hadm, Bool.not_true, Bool.false_eq_true, if_false]
    refine ⟨by simp, ?_, ?_⟩
    · intro c hc
      have := List.of_mem_filter hc
      simpa using this
    · intro m hm
      have := List.of_mem_filter hm
      simpa using this

/-- Witness for the amended C8 at a concrete store. -/
theorem empty_conversation_deletion_witness :
    (leaveV1 storeC8 7 1).store.messages = storeC8.messages ∧
    (deleteChatRoute storeC8 7 1).status = 200 := by
  have h := empty_conversation_deletion storeC8 7 1 chatC8 (by decide) (by decide) (by decide)
  exact ⟨(h.1 (by decide)).2.2, (h.2 (by decide)).1⟩

/-! ### Claim C3 -/

/-- Number of stored chats matching the private-chat dedup query for the
participant list `[a, b]`. -/
def directCount (st : Store) (a b : Nat) : Nat :=
  (st.chats.filter (directMatch [a, b])).length

theorem directMatch_swap (A B : Nat) (c : Chat) :
    directMatch [B, A] c = directMatch [A, B] c := by
  unfold directMatch
  simp only [List.all_cons, List.all_nil, Bool.and_true]
  rw [Bool.and_comm (c.participants.contains B)]

theorem directMatch_congr {A B : Nat} {ps : List Nat}
    (hps : ps = [A, B] ∨ ps = [B, A]) (c : Chat) :
    directMatch ps c = directMatch [A, B] c := by
  rcases hps with rfl | rfl
  · rfl
  · exact directMatch_swap A B c

theorem find?_congr {α : Type} {p q : α → Bool} (h : ∀ a, p a = q a) :
    ∀ l : List α, l.find? p = l.find? q
  | [] => rfl
  | a :: l => by
    simp only [List.find?, h a]
    cases q a
    · exact find?_congr h l
    · rfl

/-- Reduction of the private-chat creation route once its validations pass:
either the dedup query finds an existing chat (returned with 200) or a fresh
chat is inserted (201). -/
theorem createChat_priv_step (st : Store) (r : Nat) (ps : List Nat)
    (hcont : ps.contains r = true) (hlen : ps.length = 2) :
    createChat st r ps ChatType.priv none =
      match st.chats.find? (directMatch ps) with
      | some c => ⟨200, some c, st⟩
      | none =>
        ⟨201, some ⟨st.nextId, ChatType.priv, none, ps, [], none, [], st.now, st.now⟩,
          { st with
              chats := st.chats ++
                [⟨st.nextId, ChatType.priv, none, ps, [], none, [], st.now, st.now⟩]
              nextId := st.nextId + 1
              now := st.now + 1 }⟩ := by
  have h1 : ¬ ps.length < 1 := by omega
  have h3 : (ps.length != 2) = false := by simp [hlen]
  unfold createChat
  rw [if_neg h1, hcont]
  simp only [if_true, h3, Bool.false_eq_true, if_false]
  rfl

/-- Claim C3: direct-conversation creation is idempotent over the unordered
pair — a second create call with the same two users in either order returns a
chat with the same id and signals HTTP 200 (already existed) rather than 201,
and the number of private chats stored for that pair never grows beyond
one. -/
theorem createDirect_idempotent (st : Store) (A B r1 r2 : Nat) (ps2 : List Nat)
    (hr1 : r1 = A ∨ r1 = B) (hr2 : r2 = A ∨ r2 = B)
    (hps2 : ps2 = [A, B] ∨ ps2 = [B, A]) :
    (∃ c1 c2, (createChat st r1 [A, B] ChatType.priv none).chat = some c1 ∧
      (createChat (createChat st r1 [A, B] ChatType.priv none).store
        r2 ps2 ChatType.priv none).chat = some c2 ∧ c1.id = c2.id) ∧
    (createChat (createChat st r1 [A, B] ChatType.priv none).store
      r2 ps2 ChatType.priv none).status = 200 ∧
    (directCount st A B ≤ 1 →
      directCount (createChat (createChat st r1 [A, B] ChatType.priv none).store
        r2 ps2 ChatType.priv none).store A B ≤ 1) := by
  have hc1 : ([A, B].contains r1) = true := by
    rcases hr1 with rfl | rfl <;> simp
  have hc2 : (ps2.contains r2) = true := by
    rcases hps2 with rfl | rfl <;> rcases hr2 with rfl | rfl <;> simp
  have hlenAB : ([A, B] : List Nat).length = 2 := rfl
  have hlen2 : ps2.length = 2 := by
    rcases hps2 with rfl | rfl <;> rfl
  have hfcongr : ∀ l : List Chat, l.find? (directMatch ps2) = l.find? (directMatch [A, B]) :=
    find?_congr (directMatch_congr hps2)
  rw [createChat_priv_step st r1 [A, B] hc1 hlenAB]
  cases hfind : st.chats.find? (directMatch [A, B]) with
  | some c =>
    rw [createChat_priv_step st r2 ps2 hc2 hlen2, hfcongr, hfind]
    exact ⟨⟨c, c, by trivial, by trivial, rfl⟩, by trivial, fun h => h⟩
  | none =>
    have hmatch : directMatch [A, B]
        ⟨st.nextId, ChatType.priv, none, [A, B], [], none, [], st.now, st.now⟩ = true := by
      simp [directMatch]
    rw [createChat_priv_step _ r2 ps2 hc2 hlen2, hfcongr, List.find?_append, hfind,
      List.find?_cons_of_pos _ hmatch]
    simp only [Option.none_or]
    refine ⟨⟨_, _, by trivial, by trivial, rfl⟩, by trivial, ?_⟩
    intro _
    have hnil : st.chats.filter (directMatch [A, B]) = [] := by
      rw [List.filter_eq_nil_iff]
      intro c hc hdc
      exact List.find?_eq_none.mp hfind c hc hdc
    unfold directCount
    simp only [List.filter_append, hnil, List.nil_append]
    simp [hmatch]

/-- Witness for C3 at a concrete (empty) store. -/
theorem createDirect_idempotent_witness :
    (createChat (createChat ⟨[], [], 10, 100⟩ 3 [3, 4] ChatType.priv none).store
      4 [4, 3] ChatType.priv none).status = 200 ∧
    directCount (createChat (createChat ⟨[], [], 10, 100⟩ 3 [3, 4] ChatType.priv none).store
      4 [4, 3] ChatType.priv none).store 3 4 ≤ 1 := by
  have h := createDirect_idempotent ⟨[], [], 10, 100⟩ 3 4 3 4 [4, 3]
    (Or.inl rfl) (Or.inr rfl) (Or.inr rfl)
  exact ⟨h.2.1, h.2.2 (by decide)⟩

/-! ### Claim C7 -/

theorem markReadUpd_pred_false (chatId userId : Nat) (m : Message) :
    markReadPred chatId userId (markReadUpd chatId userId m) = false := by
  unfold markReadUpd
  by_cases h : markReadPred chatId userId m
  · rw [if_pos h]
    simp [markReadPred]
  · rw [if_neg h]
    simpa using h

theorem markReadUpd_idem (chatId userId : Nat) (m : Message) :
    markReadUpd chatId userId (markReadUpd chatId userId m) =
      markReadUpd chatId userId m := by
  rw [markReadUpd, markReadUpd_pred_false]
  simp

/-- Claim C7: markRead adds the caller to `readBy` of exactly those messages
of the conversation whose sender is not the caller and whose `readBy` does
not already contain them, and it is idempotent — a second call changes no
`readBy` set and reports an updatedCount of zero. -/
theorem markRead_exact_idempotent (st : Store) (chatId userId : Nat) (c0 : Chat)
    (hfind : findChat st chatId = some c0) (hpart : userId ∈ c0.participants) :
    (markAsRead st chatId userId).status = 200 ∧
    (markAsRead st chatId userId).store.messages =
      st.messages.map (fun m =>
        if m.chat = chatId ∧ m.sender ≠ userId ∧ userId ∉ m.readBy
        then { m with readBy := m.readBy ++ [userId] } else m) ∧
    (markAsRead (markAsRead st chatId userId).store chatId userId).store.messages =
      (markAsRead st chatId userId).store.messages ∧
    (markAsRead (markAsRead st chatId userId).store chatId userId).updatedCount = 0 := by
  have hcont : c0.participants.contains userId = true := contains_eq_true_of_mem hpart
  have hstep : markAsRead st chatId userId =
      ⟨200, (st.messages.filter (markReadPred chatId userId)).length,
        ⟨st.chats, st.messages.map (markReadUpd chatId userId), st.nextId, st.now⟩⟩ := by
    unfold markAsRead
    rw [hfind]
    simp only [hcont, Bool.not_true, Bool.false_eq_true, if_false]
  have hfind2 : findChat
      ⟨st.chats, st.messages.map (markReadUpd chatId userId), st.nextId, st.now⟩ chatId =
      some c0 := hfind
  have hstep2 : markAsRead
      ⟨st.chats, st.messages.map (markReadUpd chatId userId), st.nextId, st.now⟩ chatId userId =
      ⟨200, ((st.messages.map (markReadUpd chatId userId)).filter
          (markReadPred chatId userId)).length,
        ⟨st.chats,
          (st.messages.map (markReadUpd chatId userId)).map (markReadUpd chatId userId),
          st.nextId, st.now⟩⟩ := by
    unfold markAsRead
    rw [hfind2]
    simp only [hcont, Bool.not_true, Bool.false_eq_true, if_false]
  have hnil : (st.messages.map (markReadUpd chatId userId)).filter
      (markReadPred chatId userId) = [] := by
    rw [List.filter_eq_nil_iff]
    intro m hm
    obtain ⟨m0, _, rfl⟩ := List.mem_map.mp hm
    simp [markReadUpd_pred_false]
  have hmapmap : (st.messages.map (markReadUpd chatId userId)).map
      (markReadUpd chatId userId) = st.messages.map (markReadUpd chatId userId) := by
    rw [List.map_map]
    exact List.map_congr_left (fun m _ => markReadUpd_idem chatId userId m)
  rw [hstep, hstep2]
  refine ⟨rfl, ?_, hmapmap, by rw [hnil]; rfl⟩
  apply List.map_congr_left
  intro m _
  unfold markReadUpd markReadPred
  by_cases h1 : m.chat = chatId <;> by_cases h2 : m.sender = userId <;>
    by_cases h3 : userId ∈ m.readBy <;> simp [h1, h2, h3]

/-- Witness for C7 at a concrete store. -/
theorem markRead_exact_idempotent_witness :
    (markAsRead ⟨[⟨1, ChatType.group, some "g", [3, 4], [3], none, [], 0, 0⟩],
      [⟨5, 1, 4, some "hi", none, none, [4], false, 0⟩], 10, 100⟩ 1 3).status = 200 ∧
    (markAsRead (markAsRead ⟨[⟨1, ChatType.group, some "g", [3, 4], [3], none, [], 0, 0⟩],
      [⟨5, 1, 4, some "hi", none, none, [4], false, 0⟩], 10, 100⟩ 1 3).store 1 3).updatedCount = 0 := by
  have h := markRead_exact_idempotent
    ⟨[⟨1, ChatType.group, some "g", [3, 4], [3], none, [], 0, 0⟩],
      [⟨5, 1, 4, some "hi", none, none, [4], false, 0⟩], 10, 100⟩ 1 3
    ⟨1, ChatType.group, some "g", [3, 4], [3], none, [], 0, 0⟩ (by decide) (by decide)
  exact ⟨h.1, h.2.2.2⟩

/-! ### Claim C6 -/

/-- The admin invariant of one chat document: a group chat always has a
non-empty, duplicate-free admin list contained in its participants.
(Duplicate-freeness is the strengthening that makes the invariant inductive:
no modelled operation ever inserts a duplicate admin.) -/
def chatInv (c : Chat) : Prop :=
  c.ctype = ChatType.group → c.admins ≠ [] ∧ c.admins ⊆ c.participants ∧ c.admins.Nodup

/-- The admin invariant over every stored chat. -/
def storeInv (st : Store) : Prop := ∀ c ∈ st.chats, chatInv c

instance (c : Chat) : Decidable (chatInv c) := by
  unfold chatInv
  infer_instance

instance (st : Store) : Decidable (storeInv st) := by
  unfold storeInv
  infer_instance

theorem storeInv_chats_eq (st : Store) {st' : Store} (h : storeInv st)
    (he : st'.chats = st.chats) : storeInv st' := by
  intro c hc
  rw [he] at hc
  exact h c hc

theorem storeInv_saveChat {st : Store} {nd : Chat} (h : storeInv st) (hnd : chatInv nd) :
    storeInv (saveChat st nd) := by
  intro c hc
  rcases mem_saveChat hc with rfl | ⟨hc2, _⟩
  · exact hnd
  · exact h c hc2

theorem storeInv_filter {st : Store} (p : Chat → Bool) (h : storeInv st)
    {st' : Store} (he : st'.chats = st.chats.filter p) : storeInv st' := by
  intro c hc
  rw [he] at hc
  exact h c (List.mem_of_mem_filter hc)

theorem ctype_eq_group_of_not_bne {c : Chat}
    (h : ¬((c.ctype != ChatType.group) = true)) : c.ctype = ChatType.group := by
  cases hx : c.ctype with
  | priv =>
    rw [hx] at h
    simp at h
  | group => rfl

theorem ctype_eq_priv_of_not_beq {c : Chat}
    (h : ¬((c.ctype == ChatType.group) = true)) : c.ctype = ChatType.priv := by
  cases hx : c.ctype with
  | priv => rfl
  | group =>
    rw [hx] at h
    simp at h

theorem ctype_eq_group_of_not_priv {c : Chat}
    (h : ¬((c.ctype == ChatType.priv) = true)) : c.ctype = ChatType.group := by
  cases hx : c.ctype with
  | priv =>
    rw [hx] at h
    simp at h
  | group => rfl

theorem markAsRead_inv (st : Store) (chatId userId : Nat) (h : storeInv st) :
    storeInv (markAsRead st chatId userId).store := by
  unfold markAsRead
  split
  · exact h
  split
  · exact h
  · exact storeInv_chats_eq st h rfl

theorem sendMessage_inv (st : Store) (chatId senderId : Nat) (content : Option String)
    (file : Option MediaFile) (h : storeInv st) :
    storeInv (sendMessage st chatId senderId content file).store := by
  unfold sendMessage
  split
  · exact h
  split
  · exact h
  case _ c0 hfind =>
    split
    · exact h
    · refine storeInv_chats_eq (saveChat
        ⟨st.chats, st.messages ++ [_], st.nextId + 1, st.now⟩ _) ?_ rfl
      apply storeInv_saveChat (storeInv_chats_eq st h rfl)
      intro hg
      exact (h c0 (findChat_mem hfind).1) hg

theorem socketSendMessage_inv (st : Store) (userId chatId : Nat) (content : String)
    (h : storeInv st) : storeInv (socketSendMessage st userId chatId content).store := by
  unfold socketSendMessage
  split
  · exact h
  split
  · exact h
  case _ c0 hfind =>
    split
    · exact h
    · refine storeInv_chats_eq (saveChat
        ⟨st.chats, st.messages ++ [_], st.nextId + 1, st.now⟩ _) ?_ rfl
      apply storeInv_saveChat (storeInv_chats_eq st h rfl)
      intro hg
      exact (h c0 (findChat_mem hfind).1) hg

theorem deleteChatRoute_inv (st : Store) (userId chatId : Nat) (h : storeInv st) :
    storeInv (deleteChatRoute st userId chatId).store := by
  unfold deleteChatRoute
  split
  · exact h
  case _ c0 hfind =>
    split
    · split
      · exact h
      · exact storeInv_filter _ h rfl
    case _ hng =>
      have hpriv : c0.ctype = ChatType.priv := ctype_eq_priv_of_not_beq hng
      split
      · exact h
      dsimp only
      split
      · exact storeInv_filter _ h rfl
      · apply storeInv_saveChat h
        intro hg
        rw [hpriv] at hg
        exact absurd hg (by simp)

theorem createChat_inv (st : Store) (r : Nat) (ps : List Nat) (t : ChatType)
    (n : Option String) (h : storeInv st) : storeInv (createChat st r ps t n).store := by
  have hr : ∀ qs : List Nat,
      r ∈ (if qs.contains r then qs else qs ++ [r]) := by
    intro qs
    by_cases hq : qs.contains r = true
    · rw [if_pos hq]
      simpa [List.elem_eq_mem, decide_eq_true_eq] using hq
    · rw [if_neg hq]
      simp
  unfold createChat
  cases t with
  | priv =>
    dsimp only
    split
    · exact h
    split
    · exact h
    generalize (if ps.contains r = true then ps else ps ++ [r]) = qs
    split
    · exact h
    split
    · exact h
    · intro c hc
      rcases List.mem_append.mp hc with hc1 | hc2
      · exact h c hc1
      · have hce : c = ⟨st.nextId, ChatType.priv, none, qs, [], none, [], st.now, st.now⟩ := by
          simpa using hc2
        rw [hce]
        intro hg
        exact absurd hg (by simp)
  | group =>
    dsimp only
    split
    · exact h
    split
    · exact h
    generalize hqs : (if ps.contains r = true then ps else ps ++ [r]) = qs
    have hrq : r ∈ qs := hqs ▸ hr ps
    intro c hc
    rcases List.mem_append.mp hc with hc1 | hc2
    · exact h c hc1
    · have hce : c = ⟨st.nextId, ChatType.group, n, qs, [r], none, [], st.now, st.now⟩ := by
        simpa using hc2
      rw [hce]
      intro _
      refine ⟨by simp, ?_, by simp⟩
      intro a ha
      have ha2 : a = r := by simpa using ha
      rw [ha2]
      exact hrq

theorem addMembers_inv (st : Store) (actorId chatId : Nat) (newIds : List Nat)
    (h : storeInv st) : storeInv (addMembers st actorId chatId newIds).store := by
  unfold addMembers
  split
  · exact h
  split
  · exact h
  case _ c0 hfind =>
    split
    · exact h
    split
    · exact h
    dsimp only
    split
    · exact h
    case _ hng _ _ =>
      have hgrp : c0.ctype = ChatType.group := ctype_eq_group_of_not_bne hng
      refine storeInv_chats_eq (saveChat st _) ?_ rfl
      apply storeInv_saveChat h
      intro _
      obtain ⟨hne, hsub, hnd⟩ := (h c0 (findChat_mem hfind).1) hgrp
      exact ⟨hne, fun a ha => List.mem_append_left _ (hsub ha), hnd⟩

theorem filterNe_ne_nil {l : List Nat} {t : Nat} (hnd : l.Nodup) (hne : l ≠ [])
    (hg : ¬(t ∈ l ∧ l.length = 1 ∧ l.head? = some t)) :
    l.filter (fun i => i != t) ≠ [] := by
  by_cases ht : t ∈ l
  · cases l with
    | nil => exact absurd rfl hne
    | cons a l' =>
      cases l' with
      | nil =>
        have hta : t = a := by simpa using ht
        exact absurd ⟨ht, rfl, by simp [hta]⟩ hg
      | cons b l'' =>
        have hab : a ≠ b := by
          rw [List.nodup_cons] at hnd
          exact fun he => hnd.1 (he ▸ List.mem_cons_self b l'')
        by_cases hat : a = t
        · apply List.ne_nil_of_mem (a := b)
          apply List.mem_filter.mpr
          refine ⟨List.mem_cons_of_mem _ (List.mem_cons_self _ _), ?_⟩
          simp only [bne_iff_ne, ne_eq, decide_eq_true_eq]
          rw [← hat]
          exact fun he => hab he.symm
        · apply List.ne_nil_of_mem (a := a)
          exact List.mem_filter.mpr ⟨List.mem_cons_self _ _, by simp [hat]⟩
  · rw [List.filter_eq_self.mpr]
    · exact hne
    · intro a ha
      simp only [bne_iff_ne, ne_eq, decide_eq_true_eq]
      rintro rfl
      exact ht ha

theorem filterNe_subset_filterNe {l1 l2 : List Nat} {t : Nat} (hsub : l1 ⊆ l2) :
    l1.filter (fun i => i != t) ⊆ l2.filter (fun i => i != t) := by
  intro a ha
  obtain ⟨ha1, ha2⟩ := List.mem_filter.mp ha
  exact List.mem_filter.mpr ⟨hsub ha1, ha2⟩

theorem removeMember_inv (st : Store) (actorId chatId targetId : Nat)
    (h : storeInv st) : storeInv (removeMember st actorId chatId targetId).store := by
  unfold removeMember
  split
  · exact h
  case _ c0 hfind =>
    split
    · exact h
    case _ hng =>
      have hgrp : c0.ctype = ChatType.group := ctype_eq_group_of_not_bne hng
      split
      · exact h
      split
      · exact h
      case _ hguard =>
        dsimp only
        split
        · exact h
        · obtain ⟨hne, hsub, hnd⟩ := (h c0 (findChat_mem hfind).1) hgrp
          have hg2 : ¬(targetId ∈ c0.admins ∧ c0.admins.length = 1 ∧
              c0.admins.head? = some targetId) := by
            rintro ⟨h1, h2, h3⟩
            exact hguard (by simp [isAdmin, h1, h2, h3])
          refine storeInv_chats_eq (saveChat st _) ?_ rfl
          apply storeInv_saveChat h
          intro _
          exact ⟨filterNe_ne_nil hnd hne hg2, filterNe_subset_filterNe hsub,
            List.Nodup.filter _ hnd⟩

theorem leaveV2_inv (st : Store) (userId chatId : Nat) (h : storeInv st) :
    storeInv (leaveV2 st userId chatId).store := by
  unfold leaveV2
  split
  · exact h
  case _ c0 hfind =>
    split
    · exact h
    case _ hnp =>
      have hgrp : c0.ctype = ChatType.group := ctype_eq_group_of_not_priv hnp
      split
      · exact h
      split
      · exact h
      case _ hguard =>
        dsimp only
        split
        · exact h
        · obtain ⟨hne, hsub, hnd⟩ := (h c0 (findChat_mem hfind).1) hgrp
          have hg2 : ¬(userId ∈ c0.admins ∧ c0.admins.length = 1 ∧
              c0.admins.head? = some userId) := by
            rintro ⟨h1, h2, h3⟩
            exact hguard (by simp [isAdmin, h1, h2, h3])
          refine storeInv_chats_eq (saveChat st _) ?_ rfl
          apply storeInv_saveChat h
          intro _
          exact ⟨filterNe_ne_nil hnd hne hg2, filterNe_subset_filterNe hsub,
            List.Nodup.filter _ hnd⟩

theorem leaveV1_inv (st : Store) (userId chatId : Nat) (h : storeInv st) :
    storeInv (leaveV1 st userId chatId).store := by
  unfold leaveV1
  split
  · exact h
  case _ c0 hfind =>
    split
    · exact h
    case _ hng =>
      have hgrp : c0.ctype = ChatType.group := ctype_eq_group_of_not_bne hng
      dsimp only
      split
      · exact h
      split
      · exact storeInv_filter _ h rfl
      case _ p rest heq =>
        obtain ⟨hne, hsub, hnd⟩ := (h c0 (findChat_mem hfind).1) hgrp
        refine storeInv_chats_eq (saveChat st _) ?_ rfl
        apply storeInv_saveChat h
        intro _
        by_cases hemp : (c0.admins.filter (fun i => i != userId)).isEmpty = true
        · have hnil : c0.admins.filter (fun i => i != userId) = [] :=
            List.isEmpty_iff.mp hemp
          rw [if_pos hemp, hnil]
          refine ⟨by simp, ?_, by simp⟩
          intro a ha
          have ha2 : a = p := by simpa using ha
          rw [ha2]
          exact List.mem_cons_self _ _
        · rw [if_neg hemp]
          refine ⟨fun hx => hemp (List.isEmpty_iff.mpr hx), ?_, List.Nodup.filter _ hnd⟩
          rw [← heq]
          exact filterNe_subset_filterNe hsub

theorem applyOp_inv (st : Store) (op : Op) (h : storeInv st) :
    storeInv (applyOp st op) := by
  cases op with
  | create r ps t n => exact createChat_inv st r ps t n h
  | add a cid ids => exact addMembers_inv st a cid ids h
  | remove a cid t => exact removeMember_inv st a cid t h
  | leaveA u cid => exact leaveV1_inv st u cid h
  | leaveB u cid => exact leaveV2_inv st u cid h
  | send s cid c f => exact sendMessage_inv st cid s c f h
  | sockSend s cid c => exact socketSendMessage_inv st s cid c h
  | markRead u cid => exact markAsRead_inv st cid u h
  | delChat u cid => exact deleteChatRoute_inv st u cid h

theorem foldl_applyOp_inv (ops : List Op) (st : Store) (h : storeInv st) :
    storeInv (ops.foldl applyOp st) := by
  induction ops generalizing st with
  | nil => exact h
  | cons op rest ih => exact ih _ (applyOp_inv st op h)

/-- Claim C6: starting from any store satisfying the admin invariant, after
any sequence of modelled operations every stored group chat with at least one
participant has a non-empty admin list contained in its participants;
moreover a successful removeMember removes the target from the admins (and
participants) of the stored chat, and a self-leave whose removal would empty
the admin list while participants remain promotes the earliest-joined
remaining participant (the head of the filtered participant list) to sole
admin. -/
theorem group_admin_invariant (st : Store) (h : storeInv st) :
    (∀ ops : List Op, ∀ c ∈ (ops.foldl applyOp st).chats,
      c.ctype = ChatType.group → c.participants ≠ [] →
        c.admins ≠ [] ∧ c.admins ⊆ c.participants) ∧
    (∀ actorId chatId targetId,
      (removeMember st actorId chatId targetId).status = 200 →
      ∀ c ∈ (removeMember st actorId chatId targetId).store.chats, c.id = chatId →
        targetId ∉ c.admins ∧ targetId ∉ c.participants) ∧
    (∀ userId chatId c0, findChat st chatId = some c0 →
      c0.ctype = ChatType.group → userId ∈ c0.participants →
      c0.admins.filter (fun i => i != userId) = [] →
      ∀ p rest, c0.participants.filter (fun i => i != userId) = p :: rest →
      ∀ c ∈ (leaveV1 st userId chatId).store.chats, c.id = chatId →
        c.admins = [p]) := by
  refine ⟨?_, ?_, ?_⟩
  · intro ops c hc hg hp
    obtain ⟨hne, hsub, _⟩ := (foldl_applyOp_inv ops st h) c hc hg
    exact ⟨hne, hsub⟩
  · intro actorId chatId targetId
    unfold removeMember
    split
    · intro h200
      exact absurd h200 (by simp)
    case _ c0 hfind =>
      split
      · intro h200
        exact absurd h200 (by simp)
      split
      · intro h200
        exact absurd h200 (by simp)
      split
      · intro h200
        exact absurd h200 (by simp)
      dsimp only
      split
      · intro h200
        exact absurd h200 (by simp)
      · intro _ c hc hcid
        have hchats : c ∈ (saveChat st
            { c0 with
                participants := c0.participants.filter (fun i => i != targetId)
                admins := c0.admins.filter (fun i => i != targetId)
                updatedAt := st.now }).chats := by
          simpa [addSystemMessage] using hc
        rcases mem_saveChat hchats with rfl | ⟨_, hne⟩
        · exact ⟨not_mem_filterNe _ _, not_mem_filterNe _ _⟩
        · exact absurd (hcid.trans (findChat_mem hfind).2.symm) hne
  · intro userId chatId c0 hfind hgrp hpart hadms p rest heq c hc hcid
    have hlen2 : (((p : Nat) :: rest).length == c0.participants.length) = false := by
      rw [← heq]
      simpa using Nat.ne_of_lt (filterNe_length_lt hpart)
    have hemp : (c0.admins.filter (fun i => i != userId)).isEmpty = true :=
      List.isEmpty_iff.mpr hadms
    rw [leaveV1] at hc
    rw [hfind] at hc
    simp only [hgrp, bne_self_eq_false, Bool.false_eq_true, if_false, heq, hlen2, hemp,
      hadms, List.nil_append, if_true] at hc
    have hchats : c ∈ (saveChat st
        { c0 with
            ctype := ChatType.group
            participants := p :: rest
            admins := [p]
            updatedAt := st.now }).chats := by
      simpa [addSystemMessage] using hc
    rcases mem_saveChat hchats with rfl | ⟨_, hne⟩
    · rfl
    · exact absurd (hcid.trans (findChat_mem hfind).2.symm) hne

/-- A group whose admins are all of its two participants. -/
def chatC6 : Chat := ⟨1, ChatType.group, some "g", [3, 4], [3, 4], none, [], 0, 0⟩

def storeC6 : Store := ⟨[chatC6], [], 10, 0⟩

/-- Witness for C6 at a concrete store. -/
theorem group_admin_invariant_witness :
    (chatC6.admins ≠ [] ∧ chatC6.admins ⊆ chatC6.participants) ∧
    (4 : Nat) ∉ ((removeMember storeC6 3 1 4).store.chats.headI).admins := by
  have h := group_admin_invariant storeC6 (by decide)
  constructor
  · exact h.1 [] chatC6 (by decide) (by decide) (by decide)
  · exact ((h.2.1 3 1 4 (by decide))
      ((removeMember storeC6 3 1 4).store.chats.headI) (by decide) (by decide)).1

end NextTalk
